import Mathlib

/-!
# Verification of the Meal-planner core logic

A shallow embedding of the logical core of `src/app.py`:

* the prompt builder (lines 46-78): a pure function from the sidebar
  preference values to the instruction string sent to the provider;
* the response interpreter (lines 87-120): fence-marker stripping,
  JSON parsing and the defensive, duck-typed traversal of the parsed
  value that drives rendering, together with the two exception
  handlers (lines 122-125).

Python strings are modelled as `List Char`.  Python's dynamic field
accesses are modelled by `Except PyExc` computations whose error
constructors mirror the exception classes CPython raises at each
site.  JSON numbers are modelled as integers (every numeric value the
claims mention is integral; fraction/exponent forms, which Python
decodes to IEEE floats, are outside the model and are rejected by the
embedded parser).
-/

/-- Python strings, as lists of characters. -/
abbrev Text := List Char

/-- Coerce a Lean string literal to the `Text` model. -/
def txt (s : String) : Text := s.data

/-- `startsWithPat pat s` : does `s` begin with the pattern `pat`?
Mirrors the prefix test performed by Python's `str.replace` scan. -/
def startsWithPat : Text → Text → Bool
  | [], _ => true
  | _ :: _, [] => false
  | p :: ps, c :: cs => p = c && startsWithPat ps cs

/-- `occursB pat s` : does `pat` occur as a contiguous substring of `s`? -/
def occursB (pat : Text) : Text → Bool
  | [] => startsWithPat pat []
  | c :: cs => startsWithPat pat (c :: cs) || occursB pat cs

/-- Fuel-indexed worker for `removeAll`.  Scans left to right; at each
position either removes a (non-overlapping) occurrence of `pat` or keeps
the head character — exactly the semantics of Python's
`s.replace(pat, "")`. -/
def removeAllF (pat : Text) : Nat → Text → Text
  | 0, s => s
  | _ + 1, [] => []
  | f + 1, c :: cs =>
    if startsWithPat pat (c :: cs) then removeAllF pat f ((c :: cs).drop pat.length)
    else c :: removeAllF pat f cs

/-- `s.replace(pat, "")` from `app.py` line 87: delete every
(left-to-right, non-overlapping) occurrence of `pat` in `s`. -/
def removeAll (pat s : Text) : Text := removeAllF pat s.length s

/-- ASCII whitespace recognised by Python's `str.strip()`. -/
def isPyWs (c : Char) : Bool :=
  c = ' ' || c = '\t' || c = '\n' || c = '\r' || c = '\x0b' || c = '\x0c'

/-- Python's `str.strip()` (restricted to ASCII whitespace, which is all
the surrounding text a JSON reply can carry). -/
def stripText (s : Text) : Text :=
  ((s.dropWhile isPyWs).reverse.dropWhile isPyWs).reverse

/-- The long fence marker removed first: `"```json"` (line 87). -/
def fenceJson : Text := txt "```json"

/-- The short fence marker removed second: `"```"` (line 87). -/
def fenceMark : Text := txt "```"

/-- Line 87 of `app.py`:
`clean_json = response.text.replace("```json", "").replace("```", "").strip()`. -/
def cleanText (s : Text) : Text :=
  stripText (removeAll fenceMark (removeAll fenceJson s))

/-- Wrapping a payload in the markdown code-fence markers
`"```json" ... "```"`, as an ill-behaved provider reply would. -/
def wrapFence (s : Text) : Text := fenceJson ++ s ++ fenceMark


/-! ## JSON values and parsing (`json.loads`, line 88)

`Json` models the values `json.loads` can return: `obj` keeps the
key/value pairs in source order; Python `dict` semantics (last binding
wins, first position kept) are implemented by the lookup functions
below rather than by normalising at parse time. -/

inductive Json where
  | null
  | bool (b : Bool)
  | num (n : Int)
  | str (s : Text)
  | arr (elems : List Json)
  | obj (fields : List (Text × Json))

/-- JSON inter-token whitespace accepted by `json.loads`. -/
def isJsonWs (c : Char) : Bool :=
  c = ' ' || c = '\t' || c = '\n' || c = '\r'

/-- Skip JSON whitespace. -/
def skipWs (s : Text) : Text := s.dropWhile isJsonWs

/-- Expect the literal characters `lit` at the head of the input. -/
def expectChars : Text → Text → Option Text
  | [], s => some s
  | _ :: _, [] => none
  | p :: ps, c :: cs => if c = p then expectChars ps cs else none

/-- Value of a hexadecimal digit. -/
def hexVal (c : Char) : Option Nat :=
  if '0' ≤ c ∧ c ≤ '9' then some (c.toNat - 48)
  else if 'a' ≤ c ∧ c ≤ 'f' then some (c.toNat - 87)
  else if 'A' ≤ c ∧ c ≤ 'F' then some (c.toNat - 55)
  else none

/-- Fuel-indexed worker parsing a JSON string body (the opening quote
already consumed), with the escape sequences `json.loads` accepts.
Surrogate-pair recombination is not modelled (no claim exercises it). -/
def strBodyF : Nat → Text → Option (Text × Text)
  | 0, _ => none
  | _ + 1, [] => none
  | f + 1, c :: rest =>
    if c = '"' then some ([], rest)
    else if c = '\\' then
      match rest with
      | [] => none
      | e :: rest2 =>
        if e = '"' ∨ e = '\\' ∨ e = '/' then
          (strBodyF f rest2).map (fun p => (e :: p.1, p.2))
        else if e = 'n' then (strBodyF f rest2).map (fun p => ('\n' :: p.1, p.2))
        else if e = 't' then (strBodyF f rest2).map (fun p => ('\t' :: p.1, p.2))
        else if e = 'r' then (strBodyF f rest2).map (fun p => ('\r' :: p.1, p.2))
        else if e = 'b' then (strBodyF f rest2).map (fun p => ('\x08' :: p.1, p.2))
        else if e = 'f' then (strBodyF f rest2).map (fun p => ('\x0c' :: p.1, p.2))
        else if e = 'u' then
          match rest2 with
          | h1 :: h2 :: h3 :: h4 :: rest3 =>
            match hexVal h1, hexVal h2, hexVal h3, hexVal h4 with
            | some v1, some v2, some v3, some v4 =>
              (strBodyF f rest3).map
                (fun p => (Char.ofNat (((v1 * 16 + v2) * 16 + v3) * 16 + v4) :: p.1, p.2))
            | _, _, _, _ => none
          | _ => none
        else none
    else if c.toNat < 32 then none
    else (strBodyF f rest).map (fun p => (c :: p.1, p.2))

/-- Parse a JSON string body (opening quote already consumed). -/
def parseJStr (s : Text) : Option (Text × Text) := strBodyF s.length s

/-- Parse a JSON number.  Restricted to (optionally signed) integers:
a following `.`/`e`/`E` — a float, which Python would decode to IEEE
binary — is outside the integer model and rejected. -/
def parseJNum (s : Text) : Option (Int × Text) :=
  let p := match s with
           | '-' :: rest => (true, rest)
           | _ => (false, s)
  match p.2.takeWhile Char.isDigit, p.2.dropWhile Char.isDigit with
  | [], _ => none
  | d :: ds, rest =>
    if d = '0' ∧ ds ≠ [] then none
    else
      match rest with
      | '.' :: _ => none
      | 'e' :: _ => none
      | 'E' :: _ => none
      | _ =>
        let n : Nat := (d :: ds).foldl (fun a c => a * 10 + (c.toNat - 48)) 0
        some (if p.1 then -(n : Int) else (n : Int), rest)

/-- Result of one step of the recursive-descent parser. -/
inductive PRes where
  | v (j : Json) (rest : Text)
  | kvs (l : List (Text × Json)) (rest : Text)
  | elems (l : List Json) (rest : Text)

/-- Which production the parser is working on. -/
inductive PMode where
  | value
  | members
  | elements

/-- Fuel-indexed recursive-descent JSON parser (one function so that
recursion is structural on the fuel and reduces in the kernel).
`members` parses `"key": value (, "key": value)* }` with the leading
whitespace already skipped; `elements` parses `value (, value)* ]`. -/
def parseCore : Nat → PMode → Text → Option PRes
  | 0, _, _ => none
  | f + 1, .value, s =>
    match skipWs s with
    | [] => none
    | c :: rest =>
      if c = '\x7b' then
        match skipWs rest with
        | '\x7d' :: rest2 => some (.v (.obj []) rest2)
        | _ =>
          match parseCore f .members (skipWs rest) with
          | some (.kvs l r) => some (.v (.obj l) r)
          | _ => none
      else if c = '[' then
        match skipWs rest with
        | ']' :: rest2 => some (.v (.arr []) rest2)
        | _ =>
          match parseCore f .elements (skipWs rest) with
          | some (.elems l r) => some (.v (.arr l) r)
          | _ => none
      else if c = '"' then
        match parseJStr rest with
        | some (b, r) => some (.v (.str b) r)
        | none => none
      else if c = 't' then
        match expectChars (txt "rue") rest with
        | some r => some (.v (.bool true) r)
        | none => none
      else if c = 'f' then
        match expectChars (txt "alse") rest with
        | some r => some (.v (.bool false) r)
        | none => none
      else if c = 'n' then
        match expectChars (txt "ull") rest with
        | some r => some (.v .null r)
        | none => none
      else
        match parseJNum (c :: rest) with
        | some (n, r) => some (.v (.num n) r)
        | none => none
  | f + 1, .members, s =>
    match s with
    | '"' :: rest =>
      match parseJStr rest with
      | none => none
      | some (key, r1) =>
        match skipWs r1 with
        | ':' :: r2 =>
          match parseCore f .value r2 with
          | some (.v v r3) =>
            match skipWs r3 with
            | ',' :: r4 =>
              match parseCore f .members (skipWs r4) with
              | some (.kvs l r5) => some (.kvs ((key, v) :: l) r5)
              | _ => none
            | '\x7d' :: r4 => some (.kvs [(key, v)] r4)
            | _ => none
          | _ => none
        | _ => none
    | _ => none
  | f + 1, .elements, s =>
    match parseCore f .value s with
    | some (.v v r) =>
      match skipWs r with
      | ',' :: r2 =>
        match parseCore f .elements r2 with
        | some (.elems l r3) => some (.elems (v :: l) r3)
        | _ => none
      | ']' :: r2 => some (.elems [v] r2)
      | _ => none
    | _ => none

/-- `json.loads` (line 88), in the integer-number model: parse one JSON
value, allowing surrounding whitespace, requiring the rest to be empty. -/
def jsonParse (s : Text) : Option Json :=
  match parseCore (s.length + 1) .value s with
  | some (.v j r) => if skipWs r = [] then some j else none
  | _ => none


/-! ## Python dynamic semantics for the display block (lines 90-120)

Each operation the display block performs on the parsed value is
modelled as an `Except PyExc` computation.  Any raised `PyExc` is
caught by the catch-all `except Exception` handler (line 124); only
`json.JSONDecodeError` from parsing has a dedicated handler (line 122). -/

/-- The Python exceptions the display block can raise, with the message
text CPython attaches (up to minor version-dependent wording for
`typeError`/`attributeError`, which no claim inspects). -/
inductive PyExc where
  | keyError (key : Text)
  | typeError (msg : Text)
  | attributeError (msg : Text)

/-- Python's type name for each JSON value, as used in error messages. -/
def typeName : Json → Text
  | .null => txt "NoneType"
  | .bool _ => txt "bool"
  | .num _ => txt "int"
  | .str _ => txt "str"
  | .arr _ => txt "list"
  | .obj _ => txt "dict"

/-- Wrap a text in the single quotes CPython puts around names in
exception messages. -/
def quoted (s : Text) : Text := txt "\x27" ++ s ++ txt "\x27"

/-- Lookup in an association list with Python `dict` semantics: the
last binding of a duplicated key wins (`json.loads` builds a `dict`). -/
def dictGet? : List (Text × Json) → Text → Option Json
  | [], _ => none
  | (k, v) :: rest, key =>
    match dictGet? rest key with
    | some v2 => some v2
    | none => if k = key then some v else none

/-- The keys of a Python `dict` in iteration order: first occurrence
position, duplicates collapsed. -/
def dictKeys : List (Text × Json) → List Text
  | [] => []
  | (k, _) :: rest => k :: (dictKeys rest).filter (fun k2 => k2 ≠ k)

/-- Python's `d.items()`: iteration order of `dictKeys`, value of the
last binding. -/
def dictItems (kvs : List (Text × Json)) : List (Text × Json) :=
  (dictKeys kvs).map (fun k => (k, (dictGet? kvs k).getD .null))

/-- Python subscription `v["key"]` with a string key (lines 94, 102,
103, 108, 112, 117): a `dict` looks the key up (raising `KeyError` when
absent); every other type raises `TypeError`. -/
def subscriptStr (v : Json) (key : Text) : Except PyExc Json :=
  match v with
  | .obj kvs =>
    match dictGet? kvs key with
    | some r => .ok r
    | none => .error (.keyError key)
  | .arr _ => .error (.typeError (txt "list indices must be integers or slices, not str"))
  | .str _ => .error (.typeError (txt "string indices must be integers"))
  | v2 => .error (.typeError (quoted (typeName v2) ++ txt " object is not subscriptable"))

/-- Python iteration `for x in v`: lists yield elements, dicts yield
their keys, strings yield their characters; other types raise
`TypeError`. -/
def pyIter (v : Json) : Except PyExc (List Json) :=
  match v with
  | .arr xs => .ok xs
  | .obj kvs => .ok ((dictKeys kvs).map .str)
  | .str s => .ok (s.map (fun c => .str [c]))
  | v2 => .error (.typeError (quoted (typeName v2) ++ txt " object is not iterable"))

/-- Python's `m.get(key, default)` (line 94): defined on `dict`s; any
other receiver has no `get` attribute. -/
def pyGetMethod (m : Json) (key : Text) (default : Json) : Except PyExc Json :=
  match m with
  | .obj kvs => .ok ((dictGet? kvs key).getD default)
  | v2 => .error (.attributeError
      (quoted (typeName v2) ++ txt " object has no attribute " ++ quoted (txt "get")))

/-- One addition step of Python's `sum`: the accumulator is an `int`;
adding a JSON number or boolean succeeds (`True` counts as 1), anything
else raises `TypeError`. -/
def pyAddInt (acc : Int) (v : Json) : Except PyExc Int :=
  match v with
  | .num n => .ok (acc + n)
  | .bool b => .ok (acc + (if b then 1 else 0))
  | v2 => .error (.typeError
      (txt "unsupported operand type(s) for +: " ++ quoted (txt "int")
        ++ txt " and " ++ quoted (typeName v2)))

/-- The fold performed by `sum(m.get('estimated_cost', 0) for m in ...)`
(line 94), pulling each meal's cost and adding it in turn. -/
def sumCosts : Int → List Json → Except PyExc Int
  | acc, [] => .ok acc
  | acc, m :: rest =>
    match pyGetMethod m (txt "estimated_cost") (.num 0) with
    | .error e => .error e
    | .ok c =>
      match pyAddInt acc c with
      | .error e => .error e
      | .ok acc2 => sumCosts acc2 rest

/-- Line 94: `total_est_cost = sum(m.get('estimated_cost', 0) for m in
data['meals'])`, given the value of `data['meals']`. -/
def totalEstCost (mealsVal : Json) : Except PyExc Int :=
  match pyIter mealsVal with
  | .error e => .error e
  | .ok ms => sumCosts 0 ms

/-- The budget classification displayed at lines 97-100. -/
inductive BudgetNote where
  | overBudget
  | withinBudget
deriving DecidableEq

/-- Lines 97-100: `if total_est_cost > budget_target:` warn (over
budget) `else:` success (within budget). -/
def budgetClass (total budget : Int) : BudgetNote :=
  if total > budget then .overBudget else .withinBudget

/-- The values the expander for one meal renders (lines 103-113).
`str()` formatting of the interpolated values is total and not
modelled; the JSON values themselves are carried. -/
structure RenderedMeal where
  title : Json
  time_minutes : Json
  estimated_cost : Json
  ingredients : List Json
  instructions : List Json

/-- Lines 103-113 for a single meal, in evaluation order: the f-string
of the expander header reads `title`, `time_minutes`, `estimated_cost`
by subscription; then `meal['ingredients']` is subscripted and
iterated; then `meal['instructions']`. -/
def renderMeal (m : Json) : Except PyExc RenderedMeal :=
  match subscriptStr m (txt "title") with
  | .error e => .error e
  | .ok t =>
    match subscriptStr m (txt "time_minutes") with
    | .error e => .error e
    | .ok tm =>
      match subscriptStr m (txt "estimated_cost") with
      | .error e => .error e
      | .ok ec =>
        match subscriptStr m (txt "ingredients") with
        | .error e => .error e
        | .ok ingVal =>
          match pyIter ingVal with
          | .error e => .error e
          | .ok ings =>
            match subscriptStr m (txt "instructions") with
            | .error e => .error e
            | .ok insVal =>
              match pyIter insVal with
              | .error e => .error e
              | .ok ins => .ok ⟨t, tm, ec, ings, ins⟩

/-- The meal loop of line 102, stopping at the first exception. -/
def renderMeals : List Json → Except PyExc (List RenderedMeal)
  | [] => .ok []
  | m :: rest =>
    match renderMeal m with
    | .error e => .error e
    | .ok r =>
      match renderMeals rest with
      | .error e => .error e
      | .ok rs => .ok (r :: rs)

/-- Lines 118-120 for the categories of the shopping list: each item
sequence is iterated (checkbox rendering itself is presentation). -/
def renderCategories : List (Text × Json) → Except PyExc (List (Text × List Json))
  | [] => .ok []
  | (cat, itemsVal) :: rest =>
    match pyIter itemsVal with
    | .error e => .error e
    | .ok items =>
      match renderCategories rest with
      | .error e => .error e
      | .ok rs => .ok ((cat, items) :: rs)

/-- Line 117: `data['shopping_list'].items()` — only a `dict` has
`items`; then the category loop runs. -/
def renderShopping (slVal : Json) : Except PyExc (List (Text × List Json)) :=
  match slVal with
  | .obj kvs => renderCategories (dictItems kvs)
  | v2 => .error (.attributeError
      (quoted (typeName v2) ++ txt " object has no attribute " ++ quoted (txt "items")))

/-- Everything the display block derives from a parsed response. -/
structure RenderedPlan where
  total_est_cost : Int
  budget_note : BudgetNote
  meals : List RenderedMeal
  shopping : List (Text × List Json)

/-- Lines 93-120 applied to the parsed value `data`, in source order:
`data['meals']` (line 94), the cost sum, the budget check (lines
97-100), the meal loop (lines 102-113), then `data['shopping_list']`
and the category loop (lines 115-120).  The first exception raised
propagates to the handlers.  Line 102 subscripts `data['meals']` a
second time; as the source dict is unchanged in between, the model
reuses the value obtained at line 94 and only re-iterates it. -/
def processData (budget : Int) (data : Json) : Except PyExc RenderedPlan :=
  match subscriptStr data (txt "meals") with
  | .error e => .error e
  | .ok mealsVal =>
    match totalEstCost mealsVal with
    | .error e => .error e
    | .ok total =>
      match pyIter mealsVal with
      | .error e => .error e
      | .ok ms =>
        match renderMeals ms with
        | .error e => .error e
        | .ok rms =>
          match subscriptStr data (txt "shopping_list") with
          | .error e => .error e
          | .ok sl =>
            match renderShopping sl with
            | .error e => .error e
            | .ok shop => .ok ⟨total, budgetClass total budget, rms, shop⟩

/-- Outcome of the whole `try` block (lines 81-125) on a reply text:
`parseFail` is the `json.JSONDecodeError` path (line 122), `pyError`
is any other exception, caught by `except Exception` (line 124). -/
inductive InterpretOutcome where
  | parseFail
  | pyError (e : PyExc)
  | success (plan : RenderedPlan)

/-- The Response Interpreter: fence-stripping (line 87), `json.loads`
(line 88), then the display block (lines 90-120). -/
def interpretResponse (budget : Int) (raw : Text) : InterpretOutcome :=
  match jsonParse (cleanText raw) with
  | none => .parseFail
  | some data =>
    match processData budget data with
    | .error e => .pyError e
    | .ok plan => .success plan

/-- The two `except` handlers of lines 122-125. -/
inductive Handler where
  | noHandler
  | jsonDecodeHandler
  | genericHandler
deriving DecidableEq

/-- Which handler catches the outcome: `json.JSONDecodeError` has its
own branch (line 122); every other exception lands in the catch-all
`except Exception` branch (line 124). -/
def handlerFor : InterpretOutcome → Handler
  | .parseFail => .jsonDecodeHandler
  | .pyError _ => .genericHandler
  | .success _ => .noHandler

/-- `str(e)` for the modelled exceptions (a `KeyError` displays the
`repr` of the missing key). -/
def excText : PyExc → Text
  | .keyError k => quoted k
  | .typeError m => m
  | .attributeError m => m

/-- The error message `st.error` shows for a failing outcome (lines
122-125): the fixed parse message, or `f"An error occurred: {e}"`. -/
def displayedError : InterpretOutcome → Option Text
  | .parseFail => some (txt "Error parsing AI response. Please try again.")
  | .pyError e => some (txt "An error occurred: " ++ excText e)
  | .success _ => none

/-- Erase the budget note of a successful outcome: used to state that
the budget classification is informational only (lines 97-100 choose a
message but never stop the rendering). -/
def scrubNote : Except PyExc RenderedPlan → Except PyExc RenderedPlan
  | .ok p => .ok ⟨p.total_est_cost, .withinBudget, p.meals, p.shopping⟩
  | .error e => .error e

/-! ## The Prompt Builder (lines 39-43 and 46-78)

The sidebar widget values that feed the f-string are collected in
`MealPreferences`; the enum-valued widgets can only produce strings
from fixed option lists, but nothing below depends on that, so the
fields are plain texts. -/

/-- The sidebar inputs (lines 20-33) that the prompt f-string
interpolates. -/
structure MealPreferences where
  total_meals : Nat
  servings : Nat
  complexity : Text
  cook_ware : List Text
  max_ingredients : Text
  diet_type : Text
  avoid_list : List Text
  cuisine : Text
  budget_target : Int

/-- Decimal rendering of a natural number, as Python `str()` does
inside an f-string. -/
def natText (n : Nat) : Text := (toString n).data

/-- Decimal rendering of an integer, as Python `str()`. -/
def intText (i : Int) : Text := (toString i).data

/-- Python's `", ".join(...)` (lines 52 and 55). -/
def joinComma : List Text → Text
  | [] => []
  | [x] => x
  | x :: y :: rest => x ++ txt ", " ++ joinComma (y :: rest)

/-- The f-string of lines 46-78, segment by segment.  `{{`/`}}` in the
source render as literal braces; every line of the triple-quoted string
carries the 8-space indentation of the source. -/
def buildPrompt (p : MealPreferences) : Text :=
  txt "\n        Act as a professional chef and nutritionist. Create a meal plan for "
  ++ natText p.total_meals
  ++ txt " dinners.\n        \n        Constraints:\n        - Servings: "
  ++ natText p.servings
  ++ txt " people per meal.\n        - Complexity: "
  ++ p.complexity
  ++ txt "\n        - Cookware allowed: "
  ++ joinComma p.cook_ware
  ++ txt "\n        - Max Ingredients: "
  ++ p.max_ingredients
  ++ txt "\n        - Diet: "
  ++ p.diet_type
  ++ txt "\n        - Avoid: "
  ++ joinComma p.avoid_list
  ++ txt "\n        - Cuisine: "
  ++ p.cuisine
  ++ txt "\n        - Budget Target: Keep total ingredients under $"
  ++ intText p.budget_target
  ++ txt " (estimate generic US grocery prices).\n        \n        Output Format:\n        Return ONLY valid JSON. Do not include markdown formatting like ```json.\n        Structure:\n        \x7b\n            \"meals\": [\n                \x7b\n                    \"title\": \"Recipe Name\",\n                    \"time_minutes\": 30,\n                    \"estimated_cost\": 15.00,\n                    \"ingredients\": [\"item 1\", \"item 2\"],\n                    \"instructions\": [\"step 1\", \"step 2\"]\n                \x7d\n            ],\n            \"shopping_list\": \x7b\n                \"Produce\": [\"item\", \"item\"],\n                \"Pantry\": [\"item\"],\n                \"Protein\": [\"item\"]\n            \x7d\n        \x7d\n        "

/-- `v` occurs contiguously inside `s`. -/
def containsText (s v : Text) : Prop := ∃ l r, s = l ++ v ++ r

/-- Outcome of pressing "Generate Meal Plan" (lines 39-43): with no API
key only the validation error is shown and nothing else happens; with a
key, one prompt is built and sent, and the reply is interpreted.  The
model is stateless — each constructor carries the entire effect. -/
inductive GenerateOutcome where
  | credentialError
  | planned (prompt : Text) (result : InterpretOutcome)

/-- Lines 39-43 and onwards: `if not api_key:` (the empty string is the
only falsy `text_input` value) show the credential error; `else` build
the prompt, call the provider (whose reply text is `reply`), interpret. -/
def generateFlow (apiKey : Text) (p : MealPreferences) (reply : Text) : GenerateOutcome :=
  if apiKey = [] then .credentialError
  else .planned (buildPrompt p) (interpretResponse p.budget_target reply)


/-! ## Lemmas about `removeAll` (the `str.replace` model) -/

theorem removeAllF_nilInput (pat : Text) (f : Nat) : removeAllF pat f [] = [] := by
  cases f <;> rfl

theorem startsWithPat_nilPat (s : Text) : startsWithPat [] s = true := by
  cases s <;> rfl

theorem startsWithPat_append_self (p x : Text) : startsWithPat p (p ++ x) = true := by
  induction p with
  | nil => exact startsWithPat_nilPat x
  | cons c cs ih => simp [startsWithPat, ih]

theorem startsWithPat_of_append {p q s : Text} (h : startsWithPat (p ++ q) s = true) :
    startsWithPat p s = true := by
  induction p generalizing s with
  | nil => exact startsWithPat_nilPat s
  | cons c cs ih =>
    cases s with
    | nil => simp [startsWithPat] at h
    | cons d ds =>
      simp only [List.cons_append, startsWithPat, Bool.and_eq_true] at h ⊢
      exact ⟨h.1, ih h.2⟩

theorem length_le_of_startsWithPat {p s : Text} (h : startsWithPat p s = true) :
    p.length ≤ s.length := by
  induction p generalizing s with
  | nil => simp
  | cons c cs ih =>
    cases s with
    | nil => simp [startsWithPat] at h
    | cons d ds =>
      simp only [startsWithPat, Bool.and_eq_true] at h
      simpa using ih h.2

theorem occursB_of_pat_append {p q s : Text} (h : occursB (p ++ q) s = true) :
    occursB p s = true := by
  induction s with
  | nil =>
    simp only [occursB] at h ⊢
    have hlen := length_le_of_startsWithPat h
    have hz : (p ++ q).length = 0 := Nat.le_zero.mp (by simpa using hlen)
    rcases List.append_eq_nil.mp (List.length_eq_zero.mp hz) with ⟨h1, _⟩
    subst h1
    exact startsWithPat_nilPat []
  | cons c cs ih =>
    simp only [occursB, Bool.or_eq_true] at h ⊢
    rcases h with h | h
    · exact Or.inl (startsWithPat_of_append h)
    · exact Or.inr (ih h)

theorem removeAllF_fuel (pat : Text) (hp : pat ≠ []) :
    ∀ (n : Nat) (s : Text) (f g : Nat), s.length ≤ n → s.length ≤ f → s.length ≤ g →
      removeAllF pat f s = removeAllF pat g s := by
  intro n
  induction n with
  | zero =>
    intro s f g hn _ _
    have hs : s = [] := List.length_eq_zero.mp (Nat.le_zero.mp hn)
    subst hs
    rw [removeAllF_nilInput, removeAllF_nilInput]
  | succ n ih =>
    intro s f g hn hf hg
    cases s with
    | nil => rw [removeAllF_nilInput, removeAllF_nilInput]
    | cons c cs =>
      cases f with
      | zero => simp at hf
      | succ f =>
        cases g with
        | zero => simp at hg
        | succ g =>
          have hplen : 1 ≤ pat.length := List.length_pos.mpr hp
          simp only [List.length_cons] at hn hf hg
          by_cases hsw : startsWithPat pat (c :: cs) = true
          · simp only [removeAllF, hsw, if_true]
            apply ih
            · simp only [List.length_drop, List.length_cons]; omega
            · simp only [List.length_drop, List.length_cons]; omega
            · simp only [List.length_drop, List.length_cons]; omega
          · simp only [removeAllF, hsw, if_false, Bool.false_eq_true]
            have := ih cs f g (by omega) (by omega) (by omega)
            rw [this]

theorem removeAllF_eq_removeAll (pat : Text) (hp : pat ≠ []) (s : Text) (f : Nat)
    (hf : s.length ≤ f) : removeAllF pat f s = removeAll pat s :=
  removeAllF_fuel pat hp s.length s f s.length le_rfl hf le_rfl

theorem removeAllF_id_of_noOccur (pat : Text) :
    ∀ (s : Text) (f : Nat), s.length ≤ f → occursB pat s = false → removeAllF pat f s = s := by
  intro s
  induction s with
  | nil => intro f _ _; exact removeAllF_nilInput pat f
  | cons c cs ih =>
    intro f hf hocc
    cases f with
    | zero => simp at hf
    | succ f =>
      simp only [occursB, Bool.or_eq_false_iff] at hocc
      simp only [removeAllF, hocc.1, Bool.false_eq_true, if_false]
      rw [ih f (by simpa using Nat.lt_succ_iff.mp (Nat.lt_of_lt_of_le (Nat.lt_succ_self _) hf)) hocc.2]

theorem fenceMark_chars : fenceMark = '\x60' :: '\x60' :: '\x60' :: [] := rfl

theorem fenceJson_chars :
    fenceJson = '\x60' :: '\x60' :: '\x60' :: 'j' :: 's' :: 'o' :: 'n' :: [] := rfl

theorem fenceJson_eq_append : fenceJson = fenceMark ++ txt "json" := rfl

theorem removeAllF_head_match {pat : Text} (f : Nat) {c : Char} {cs : Text}
    (h : startsWithPat pat (c :: cs) = true) :
    removeAllF pat (f + 1) (c :: cs) = removeAllF pat f ((c :: cs).drop pat.length) := by
  simp [removeAllF, h]

theorem removeAllF_head_keep {pat : Text} (f : Nat) {c : Char} {cs : Text}
    (h : startsWithPat pat (c :: cs) = false) :
    removeAllF pat (f + 1) (c :: cs) = c :: removeAllF pat f cs := by
  simp [removeAllF, h]

theorem startsWithPat_append_restrict {p s t : Text} (h : startsWithPat p (s ++ t) = true)
    (hl : p.length ≤ s.length) : startsWithPat p s = true := by
  induction p generalizing s with
  | nil => exact startsWithPat_nilPat s
  | cons a as ih =>
    cases s with
    | nil => simp at hl
    | cons b bs =>
      simp only [List.cons_append, startsWithPat, Bool.and_eq_true] at h ⊢
      exact ⟨h.1, ih h.2 (by simpa using hl)⟩

theorem occursB_fenceJson_appendMark {s : Text} (h : occursB fenceMark s = false) :
    occursB fenceJson (s ++ fenceMark) = false := by
  induction s with
  | nil => decide
  | cons c cs ih =>
    simp only [occursB, Bool.or_eq_false_iff] at h
    simp only [List.cons_append, occursB, Bool.or_eq_false_iff]
    refine ⟨?_, ih h.2⟩
    by_contra hcon
    rw [Bool.not_eq_false] at hcon
    rcases cs with _ | ⟨d, _ | ⟨e2, cs3⟩⟩
    · have := length_le_of_startsWithPat hcon
      rw [fenceJson_chars, fenceMark_chars] at this
      simp at this
    · have := length_le_of_startsWithPat hcon
      rw [fenceJson_chars, fenceMark_chars] at this
      simp at this
    · have hmark : startsWithPat fenceMark (c :: d :: e2 :: (cs3 ++ fenceMark)) = true :=
        startsWithPat_of_append (fenceJson_eq_append ▸ hcon)
      have hres : startsWithPat fenceMark (c :: d :: e2 :: cs3) = true := by
        have : (c :: d :: e2 :: cs3) ++ fenceMark = c :: d :: e2 :: (cs3 ++ fenceMark) := by simp
        refine startsWithPat_append_restrict (this ▸ hmark) ?_
        rw [fenceMark_chars]; simp
      rw [h.1] at hres
      exact Bool.false_ne_true hres

theorem removeAllF_fenceMark_self (f : Nat) (hf : 3 ≤ f) :
    removeAllF fenceMark f fenceMark = [] := by
  obtain ⟨f3, rfl⟩ : ∃ f3, f = f3 + 3 := ⟨f - 3, by omega⟩
  rw [fenceMark_chars]
  show removeAllF fenceMark ((f3 + 2) + 1) _ = []
  rw [removeAllF_head_match (f3 + 2) (by rw [fenceMark_chars]; simp [startsWithPat])]
  rw [fenceMark_chars]
  simp [removeAllF_nilInput]

theorem removeAllF_markAppend :
    ∀ (n : Nat) (s : Text) (f : Nat), s.length ≤ n → s.length + 3 ≤ f →
      occursB fenceMark s = false → removeAllF fenceMark f (s ++ fenceMark) = s := by
  intro n
  induction n with
  | zero =>
    intro s f hn hf _
    have hs : s = [] := List.length_eq_zero.mp (Nat.le_zero.mp hn)
    subst hs
    rw [List.nil_append]
    exact removeAllF_fenceMark_self f (by omega)
  | succ n ih =>
    intro s f hn hf hocc
    cases s with
    | nil =>
      rw [List.nil_append]
      exact removeAllF_fenceMark_self f (by simp at hf; omega)
    | cons c cs =>
      simp only [occursB, Bool.or_eq_false_iff] at hocc
      simp only [List.length_cons] at hn hf
      by_cases hsw : startsWithPat fenceMark (c :: (cs ++ fenceMark)) = true
      · rcases cs with _ | ⟨d, _ | ⟨e2, cs3⟩⟩
        · have hc : c = '\x60' := by
            rw [fenceMark_chars] at hsw
            simp only [startsWithPat, Bool.and_eq_true, decide_eq_true_eq] at hsw
            exact hsw.1.symm
          subst hc
          obtain ⟨f4, rfl⟩ : ∃ f4, f = f4 + 4 := ⟨f - 4, by simp at hf; omega⟩
          show removeAllF fenceMark ((f4 + 3) + 1) ('\x60' :: ([] ++ fenceMark)) = _
          rw [removeAllF_head_match (f4 + 3) (by simpa using hsw)]
          rw [fenceMark_chars]
          show removeAllF fenceMark ((f4 + 2) + 1) ('\x60' :: []) = _
          rw [removeAllF_head_keep (f4 + 2) (by rw [fenceMark_chars]; simp [startsWithPat])]
          rw [removeAllF_nilInput]
        · have hcd : '\x60' = c ∧ '\x60' = d := by
            rw [fenceMark_chars] at hsw
            simpa [startsWithPat, List.cons_append] using
              (show startsWithPat ('\x60' :: '\x60' :: '\x60' :: []) (c :: d :: fenceMark) = true by
                rw [← fenceMark_chars]; simpa using hsw)
          obtain ⟨hc, hd⟩ := hcd
          subst hc; subst hd
          obtain ⟨f5, rfl⟩ : ∃ f5, f = f5 + 5 := ⟨f - 5, by simp at hf; omega⟩
          show removeAllF fenceMark ((f5 + 4) + 1) ('\x60' :: ('\x60' :: [] ++ fenceMark)) = _
          rw [removeAllF_head_match (f5 + 4) (by simpa using hsw)]
          rw [fenceMark_chars]
          show removeAllF fenceMark ((f5 + 3) + 1) ('\x60' :: '\x60' :: []) = _
          rw [removeAllF_head_keep (f5 + 3) (by rw [fenceMark_chars]; simp [startsWithPat])]
          show _ :: removeAllF fenceMark ((f5 + 2) + 1) ('\x60' :: []) = _
          rw [removeAllF_head_keep (f5 + 2) (by rw [fenceMark_chars]; simp [startsWithPat])]
          rw [removeAllF_nilInput]
        · exfalso
          have hres : startsWithPat fenceMark (c :: d :: e2 :: cs3) = true := by
            have he : (c :: d :: e2 :: cs3) ++ fenceMark = c :: (d :: e2 :: cs3 ++ fenceMark) := by
              simp
            refine startsWithPat_append_restrict (t := fenceMark) ?_ ?_
            · rw [he]; exact hsw
            · rw [fenceMark_chars]; simp
          rw [hocc.1] at hres
          exact Bool.false_ne_true hres
      · obtain ⟨f1, rfl⟩ : ∃ f1, f = f1 + 1 := ⟨f - 1, by omega⟩
        show removeAllF fenceMark (f1 + 1) (c :: (cs ++ fenceMark)) = _
        rw [removeAllF_head_keep f1 (by simpa using Bool.not_eq_true _ ▸ hsw)]
        rw [ih cs f1 (by omega) (by omega) hocc.2]

theorem removeAll_fenceJson_cancel (x : Text) :
    removeAll fenceJson (fenceJson ++ x) = removeAll fenceJson x := by
  have hlen : (fenceJson ++ x).length = x.length + 7 := by
    rw [List.length_append, show fenceJson.length = 7 from rfl]; omega
  show removeAllF fenceJson ((fenceJson ++ x).length) (fenceJson ++ x) = _
  rw [hlen]
  have hcons : fenceJson ++ x = '\x60' :: ('\x60' :: '\x60' :: 'j' :: 's' :: 'o' :: 'n' :: x) := by
    rw [fenceJson_chars]; simp
  rw [hcons]
  show removeAllF fenceJson ((x.length + 6) + 1) _ = _
  rw [removeAllF_head_match (x.length + 6)
    (by rw [fenceJson_chars]; simp [startsWithPat, startsWithPat_nilPat])]
  have hdrop :
      ('\x60' :: ('\x60' :: '\x60' :: 'j' :: 's' :: 'o' :: 'n' :: x)).drop fenceJson.length = x :=
    rfl
  rw [hdrop]
  exact removeAllF_eq_removeAll fenceJson (by rw [fenceJson_chars]; simp) x _ (by omega)

theorem cleanText_wrapFence {s : Text} (h : occursB fenceMark s = false) :
    cleanText (wrapFence s) = stripText s := by
  have hJ : removeAll fenceJson (wrapFence s) = s ++ fenceMark := by
    show removeAll fenceJson (fenceJson ++ s ++ fenceMark) = _
    rw [List.append_assoc, removeAll_fenceJson_cancel]
    exact removeAllF_id_of_noOccur fenceJson _ _ le_rfl (occursB_fenceJson_appendMark h)
  have hM : removeAll fenceMark (s ++ fenceMark) = s := by
    refine removeAllF_markAppend s.length s ((s ++ fenceMark).length) le_rfl ?_ h
    rw [List.length_append, show fenceMark.length = 3 from rfl]
  show stripText (removeAll fenceMark (removeAll fenceJson (wrapFence s))) = _
  rw [hJ, hM]

theorem cleanText_id {s : Text} (h : occursB fenceMark s = false) :
    cleanText s = stripText s := by
  have h7 : occursB fenceJson s = false := by
    by_contra hcon
    rw [Bool.not_eq_false] at hcon
    have h2 := occursB_of_pat_append (p := fenceMark) (q := txt "json")
      (fenceJson_eq_append ▸ hcon)
    rw [h] at h2
    exact Bool.false_ne_true h2
  show stripText (removeAll fenceMark (removeAll fenceJson s)) = _
  rw [show removeAll fenceJson s = s from removeAllF_id_of_noOccur _ _ _ le_rfl h7]
  rw [show removeAll fenceMark s = s from removeAllF_id_of_noOccur _ _ _ le_rfl h]

theorem removeAllF_length_le (pat : Text) :
    ∀ (f : Nat) (s : Text), (removeAllF pat f s).length ≤ s.length := by
  intro f
  induction f with
  | zero => intro s; exact le_rfl
  | succ f ih =>
    intro s
    cases s with
    | nil => rw [removeAllF_nilInput]
    | cons c cs =>
      by_cases hsw : startsWithPat pat (c :: cs) = true
      · rw [removeAllF_head_match f hsw]
        refine le_trans (ih _) ?_
        simp [List.length_drop]
      · rw [removeAllF_head_keep f (by simpa using hsw)]
        simpa using ih cs

theorem removeAll_shrinks_of_occurs (pat : Text) (hp : pat ≠ []) :
    ∀ (f : Nat) (s : Text), s.length ≤ f → occursB pat s = true →
      (removeAllF pat f s).length + pat.length ≤ s.length := by
  intro f
  induction f with
  | zero =>
    intro s hf hocc
    have hs : s = [] := List.length_eq_zero.mp (Nat.le_zero.mp hf)
    subst hs
    cases pat with
    | nil => exact absurd rfl hp
    | cons p ps => simp [occursB, startsWithPat] at hocc
  | succ f ih =>
    intro s hf hocc
    cases s with
    | nil =>
      cases pat with
      | nil => exact absurd rfl hp
      | cons p ps => simp [occursB, startsWithPat] at hocc
    | cons c cs =>
      by_cases hsw : startsWithPat pat (c :: cs) = true
      · rw [removeAllF_head_match f hsw]
        have h1 := removeAllF_length_le pat f ((c :: cs).drop pat.length)
        have h2 := length_le_of_startsWithPat hsw
        simp only [List.length_drop, List.length_cons] at h1 h2 ⊢
        omega
      · rw [removeAllF_head_keep f (by simpa using hsw)]
        have hocc2 : occursB pat cs = true := by
          simp only [occursB, Bool.or_eq_true] at hocc
          rcases hocc with h | h
          · exact absurd h hsw
          · exact h
        have h3 := ih cs (by simp at hf; omega) hocc2
        simp only [List.length_cons]
        omega

theorem removeAll_shrinks (pat : Text) (hp : pat ≠ []) (s : Text) (h : occursB pat s = true) :
    (removeAll pat s).length + pat.length ≤ s.length :=
  removeAll_shrinks_of_occurs pat hp s.length s le_rfl h

theorem swOne_removeAllF (f : Nat) (cs : Text)
    (h : startsWithPat ('\x60' :: []) cs = false) :
    startsWithPat ('\x60' :: []) (removeAllF ('\x60' :: '\x60' :: '\x60' :: []) f cs) = false := by
  cases cs with
  | nil => rw [removeAllF_nilInput]; exact h
  | cons e2 cs3 =>
    cases f with
    | zero => exact h
    | succ f2 =>
      by_cases hsw : startsWithPat ('\x60' :: '\x60' :: '\x60' :: []) (e2 :: cs3) = true
      · exfalso
        have heq : ('\x60' :: []) ++ ('\x60' :: '\x60' :: []) =
            ('\x60' :: '\x60' :: '\x60' :: []) := by decide
        have h1 : startsWithPat ('\x60' :: []) (e2 :: cs3) = true :=
          startsWithPat_of_append (heq ▸ hsw)
        rw [h] at h1
        exact Bool.false_ne_true h1
      · rw [removeAllF_head_keep f2 (by simpa using hsw)]
        simp only [startsWithPat, Bool.and_true] at h ⊢
        exact h

theorem swTwo_removeAllF (f : Nat) (cs : Text)
    (h : startsWithPat ('\x60' :: '\x60' :: []) cs = false) :
    startsWithPat ('\x60' :: '\x60' :: [])
      (removeAllF ('\x60' :: '\x60' :: '\x60' :: []) f cs) = false := by
  cases cs with
  | nil => rw [removeAllF_nilInput]; exact h
  | cons d cs2 =>
    cases f with
    | zero => exact h
    | succ f1 =>
      by_cases hsw : startsWithPat ('\x60' :: '\x60' :: '\x60' :: []) (d :: cs2) = true
      · exfalso
        have heq : ('\x60' :: '\x60' :: []) ++ ('\x60' :: []) =
            ('\x60' :: '\x60' :: '\x60' :: []) := by decide
        have h1 : startsWithPat ('\x60' :: '\x60' :: []) (d :: cs2) = true :=
          startsWithPat_of_append (heq ▸ hsw)
        rw [h] at h1
        exact Bool.false_ne_true h1
      · rw [removeAllF_head_keep f1 (by simpa using hsw)]
        simp only [startsWithPat] at h ⊢
        by_cases hd : ('\x60' : Char) = d
        · subst hd
          simp only [Bool.and_eq_false_iff] at h ⊢
          rcases h with h | h
          · simp at h
          · exact Or.inr (swOne_removeAllF f1 cs2 h)
        · simp [hd]

theorem occursB_removeAllF_fenceMark :
    ∀ (f : Nat) (t : Text), t.length ≤ f →
      occursB fenceMark (removeAllF fenceMark f t) = false := by
  intro f
  induction f with
  | zero =>
    intro t hf
    have ht : t = [] := List.length_eq_zero.mp (Nat.le_zero.mp hf)
    subst ht
    decide
  | succ f ih =>
    intro t hf
    cases t with
    | nil => rw [removeAllF_nilInput]; decide
    | cons c cs =>
      by_cases hsw : startsWithPat fenceMark (c :: cs) = true
      · rw [removeAllF_head_match f hsw]
        apply ih
        simp only [List.length_drop, List.length_cons,
          show fenceMark.length = 3 from rfl] at hf ⊢
        omega
      · rw [removeAllF_head_keep f (by simpa using hsw)]
        simp only [occursB, Bool.or_eq_false_iff]
        refine ⟨?_, ih cs (by simp at hf; omega)⟩
        rw [fenceMark_chars] at hsw ⊢
        by_cases hc : ('\x60' : Char) = c
        · subst hc
          have h2 : startsWithPat ('\x60' :: '\x60' :: []) cs = false := by
            by_contra hcon2
            rw [Bool.not_eq_false] at hcon2
            have h3 : startsWithPat ('\x60' :: '\x60' :: '\x60' :: [])
                ('\x60' :: cs) = true := by
              simp only [startsWithPat]
              simpa using hcon2
            exact absurd h3 hsw
          have h4 := swTwo_removeAllF f cs h2
          simp only [startsWithPat]
          simpa using h4
        · simp [startsWithPat, hc]

theorem occursB_removeAll_fenceMark (t : Text) :
    occursB fenceMark (removeAll fenceMark t) = false := by
  show occursB fenceMark (removeAllF fenceMark t.length t) = false
  exact occursB_removeAllF_fenceMark t.length t le_rfl

theorem occursB_fenceJson_of_fenceMark {t : Text} (h : occursB fenceMark t = false) :
    occursB fenceJson t = false := by
  by_contra hcon
  rw [Bool.not_eq_false] at hcon
  have h2 := occursB_of_pat_append (p := fenceMark) (q := txt "json")
    (fenceJson_eq_append ▸ hcon)
  rw [h] at h2
  exact Bool.false_ne_true h2


/-- **C3.** For meals with `estimated_cost` values `[10, 15, 20]` the
aggregate is 45; with `budget_target = 50` the plan is classified
within budget and with `budget_target = 40` over budget; in general the
over-budget classification holds exactly when the aggregate strictly
exceeds the target (line 97), and the classification is informational
only: the rest of the computed plan does not depend on the budget. -/
theorem c3_budget_classification :
    totalEstCost (.arr [.obj [(txt "estimated_cost", .num 10)],
                        .obj [(txt "estimated_cost", .num 15)],
                        .obj [(txt "estimated_cost", .num 20)]]) = .ok 45 ∧
    budgetClass 45 50 = .withinBudget ∧
    budgetClass 45 40 = .overBudget ∧
    (∀ total budget : Int, budgetClass total budget = .overBudget ↔ budget < total) ∧
    (∀ (b1 b2 : Int) (data : Json),
      scrubNote (processData b1 data) = scrubNote (processData b2 data)) := by
  refine ⟨rfl, rfl, rfl, ?_, ?_⟩
  · intro total budget
    unfold budgetClass
    split_ifs with h
    · simpa using h
    · simpa using h
  · intro b1 b2 d
    unfold processData
    rcases subscriptStr d (txt "meals") with e | mv
    · rfl
    dsimp only
    rcases totalEstCost mv with e | total
    · rfl
    dsimp only
    rcases pyIter mv with e | ms
    · rfl
    dsimp only
    rcases renderMeals ms with e | rms
    · rfl
    dsimp only
    rcases subscriptStr d (txt "shopping_list") with e | sl
    · rfl
    dsimp only
    rcases renderShopping sl with e | shop
    · rfl
    rfl

/-- **C9.** The comparison at line 97 is strict: an aggregate exactly
equal to the budget target is classified within budget, and the
over-budget classification holds exactly when the target is strictly
exceeded.  A concrete run with aggregate 45 and target 45 succeeds as
within budget. -/
theorem c9_boundary_within_budget :
    (∀ t : Int, budgetClass t t = .withinBudget) ∧
    (∀ total budget : Int, budgetClass total budget = .overBudget ↔ budget < total) ∧
    processData 45 (.obj [(txt "meals",
        .arr [.obj [(txt "title", .str (txt "A")), (txt "time_minutes", .num 30),
                    (txt "estimated_cost", .num 45), (txt "ingredients", .arr []),
                    (txt "instructions", .arr [])]]),
      (txt "shopping_list", .obj [])]) =
      .ok ⟨45, .withinBudget, [⟨.str (txt "A"), .num 30, .num 45, [], []⟩], []⟩ := by
  refine ⟨?_, ?_, rfl⟩
  · intro t
    unfold budgetClass
    rw [if_neg (lt_irrefl t)]
  · intro total budget
    unfold budgetClass
    split_ifs with h
    · simpa using h
    · simpa using h

/-- **C7.** With an empty API key string (the only falsy value of the
text input) the button handler (lines 39-43) reports the credential
validation error and nothing else: the `credentialError` outcome
carries no prompt and no provider interaction, and the model is
stateless, so no other state is touched.  Conversely any non-empty key
proceeds to build the prompt and call the provider. -/
theorem c7_missing_credential :
    (∀ (p : MealPreferences) (reply : Text),
      generateFlow [] p reply = .credentialError) ∧
    (∀ (key : Text) (p : MealPreferences) (reply : Text),
      generateFlow key p reply = .credentialError ↔ key = []) := by
  refine ⟨fun p reply => rfl, ?_⟩
  intro key p reply
  constructor
  · intro h
    by_contra hk
    unfold generateFlow at h
    rw [if_neg hk] at h
    exact GenerateOutcome.noConfusion h
  · intro h
    subst h
    rfl

/-- **C6.** Any reply text that is not valid JSON after
fence-stripping takes the `json.JSONDecodeError` branch (line 122): the
outcome is the malformed-response one, handled by the dedicated parse
handler with its fixed user-facing message. -/
theorem c6_malformed_response (budget : Int) (t : Text)
    (h : jsonParse (cleanText t) = none) :
    interpretResponse budget t = .parseFail ∧
    handlerFor (interpretResponse budget t) = .jsonDecodeHandler ∧
    displayedError (interpretResponse budget t) =
      some (txt "Error parsing AI response. Please try again.") := by
  have hout : interpretResponse budget t = .parseFail := by
    unfold interpretResponse
    rw [h]
  exact ⟨hout, by rw [hout]; rfl, by rw [hout]; rfl⟩

/-- Witness for C6 at the spec's example input `"not json"`. -/
theorem c6_malformed_response_witness :
    interpretResponse 50 (txt "not json") = .parseFail :=
  (c6_malformed_response 50 (txt "not json") rfl).1

/-- **C5** (counterexample).  The claim fails as stated: for the JSON
payload `{"a": "```"}` — valid JSON whose string value contains the
fence substring — wrapping it in the fence markers and applying the
interpreter's fence-stripping and parsing yields `{"a": ""}`, while
parsing the unwrapped payload directly yields `{"a": "```"}`: the two
parsed results differ, because line 87 removes *every* occurrence of
the marker, not just the wrapping delimiters. -/
theorem c5_counterexample :
    jsonParse (txt "\x7b\"a\": \"```\"\x7d") =
      some (.obj [(txt "a", .str (txt "```"))]) ∧
    jsonParse (cleanText (wrapFence (txt "\x7b\"a\": \"```\"\x7d"))) =
      some (.obj [(txt "a", .str [])]) ∧
    jsonParse (cleanText (wrapFence (txt "\x7b\"a\": \"```\"\x7d"))) ≠
      jsonParse (txt "\x7b\"a\": \"```\"\x7d") := by
  refine ⟨rfl, rfl, ?_⟩
  intro heq
  rw [show jsonParse (cleanText (wrapFence (txt "\x7b\"a\": \"```\"\x7d"))) =
        some (.obj [(txt "a", .str [])]) from rfl,
      show jsonParse (txt "\x7b\"a\": \"```\"\x7d") =
        some (.obj [(txt "a", .str (txt "```"))]) from rfl] at heq
  simp only [Option.some.injEq, Json.obj.injEq, List.cons.injEq, Prod.mk.injEq,
    Json.str.injEq, and_true, true_and] at heq
  exact absurd heq (by decide)

/-- **C5** (amended).  For every payload text containing no occurrence
of the fence substring "```", wrapping it in the markdown markers
`"```json" ... "```"` and applying the interpreter's fence-stripping
and parsing yields the same parsed result as parsing the
whitespace-trimmed unwrapped payload directly — equivalently, the
interpreter's parse of the wrapped and of the unwrapped input
coincide.  (The amendment excludes exactly the payloads of the
counterexample, whose string values contain "```".) -/
theorem c5_fence_roundtrip (s : Text) (h : occursB fenceMark s = false) :
    jsonParse (cleanText (wrapFence s)) = jsonParse (stripText s) ∧
    jsonParse (cleanText (wrapFence s)) = jsonParse (cleanText s) := by
  refine ⟨?_, ?_⟩
  · rw [cleanText_wrapFence h]
  · rw [cleanText_wrapFence h, cleanText_id h]

/-- Witness for the amended C5 at the payload `{"k": 1}`. -/
theorem c5_fence_roundtrip_witness :
    jsonParse (cleanText (wrapFence (txt "\x7b\"k\": 1\x7d"))) =
      jsonParse (stripText (txt "\x7b\"k\": 1\x7d")) :=
  (c5_fence_roundtrip (txt "\x7b\"k\": 1\x7d") (by decide)).1

/-- **C10.** Line 87 removes every occurrence of "```" (and of
"```json") anywhere in the response text, not only delimiters around
the payload: after the two `replace` calls no occurrence of either
marker remains in any input, and any input containing "```" loses at
least its three characters.  Hence for the JSON payload
`{"note": "a```b"}`, whose only fence substring is inside a string
value, the interpreted (fence-stripped) parse `{"note": "ab"}` differs
from parsing the original payload directly. -/
theorem c10_replace_removes_everywhere :
    cleanText (txt "\x7b\"note\": \"a```b\"\x7d") = txt "\x7b\"note\": \"ab\"\x7d" ∧
    jsonParse (txt "\x7b\"note\": \"a```b\"\x7d") =
      some (.obj [(txt "note", .str (txt "a```b"))]) ∧
    jsonParse (cleanText (txt "\x7b\"note\": \"a```b\"\x7d")) =
      some (.obj [(txt "note", .str (txt "ab"))]) ∧
    jsonParse (cleanText (txt "\x7b\"note\": \"a```b\"\x7d")) ≠
      jsonParse (txt "\x7b\"note\": \"a```b\"\x7d") ∧
    (∀ t : Text,
      occursB fenceMark (removeAll fenceMark (removeAll fenceJson t)) = false ∧
      occursB fenceJson (removeAll fenceMark (removeAll fenceJson t)) = false) ∧
    (∀ t : Text, occursB fenceMark t = true →
      (removeAll fenceMark t).length + 3 ≤ t.length) := by
  refine ⟨rfl, rfl, rfl, ?_, ?_, ?_⟩
  · intro heq
    rw [show jsonParse (cleanText (txt "\x7b\"note\": \"a```b\"\x7d")) =
          some (.obj [(txt "note", .str (txt "ab"))]) from rfl,
        show jsonParse (txt "\x7b\"note\": \"a```b\"\x7d") =
          some (.obj [(txt "note", .str (txt "a```b"))]) from rfl] at heq
    simp only [Option.some.injEq, Json.obj.injEq, List.cons.injEq, Prod.mk.injEq,
      Json.str.injEq, and_true, true_and] at heq
    exact absurd heq (by decide)
  · intro t
    have h1 := occursB_removeAll_fenceMark (removeAll fenceJson t)
    exact ⟨h1, occursB_fenceJson_of_fenceMark h1⟩
  · intro t h
    have h2 := removeAll_shrinks fenceMark (by decide) t h
    rwa [show fenceMark.length = 3 from rfl] at h2

/-- Witness for C10's conditional clause at the text `a```b`. -/
theorem c10_replace_removes_everywhere_witness :
    (removeAll fenceMark (txt "a```b")).length + 3 ≤ (txt "a```b").length :=
  c10_replace_removes_everywhere.2.2.2.2.2 (txt "a```b") (by decide)

theorem containsText_head (v b : Text) : containsText (v ++ b) v :=
  ⟨[], b, by simp⟩

theorem containsText_right (a : Text) {s v : Text} (h : containsText s v) :
    containsText (a ++ s) v := by
  obtain ⟨l, r, rfl⟩ := h
  exact ⟨a ++ l, r, by simp [List.append_assoc]⟩

theorem containsText_pair (a b r : Text) : containsText (a ++ (b ++ r)) (a ++ b) :=
  ⟨[], r, by simp [List.append_assoc]⟩

/-- The prompt f-string, re-associated to the right with the budget
currency sign split off, so that each interpolated field is exposed at
the head of a tail of the text. -/
theorem buildPrompt_decomposition (p : MealPreferences) :
    buildPrompt p =
    txt "\n        Act as a professional chef and nutritionist. Create a meal plan for " ++
    (natText p.total_meals ++
    (txt " dinners.\n        \n        Constraints:\n        - Servings: " ++
    (natText p.servings ++
    (txt " people per meal.\n        - Complexity: " ++
    (p.complexity ++
    (txt "\n        - Cookware allowed: " ++
    (joinComma p.cook_ware ++
    (txt "\n        - Max Ingredients: " ++
    (p.max_ingredients ++
    (txt "\n        - Diet: " ++
    (p.diet_type ++
    (txt "\n        - Avoid: " ++
    (joinComma p.avoid_list ++
    (txt "\n        - Cuisine: " ++
    (p.cuisine ++
    (txt "\n        - Budget Target: Keep total ingredients under " ++
    (txt "$" ++
    (intText p.budget_target ++
    txt " (estimate generic US grocery prices).\n        \n        Output Format:\n        Return ONLY valid JSON. Do not include markdown formatting like ```json.\n        Structure:\n        \x7b\n            \"meals\": [\n                \x7b\n                    \"title\": \"Recipe Name\",\n                    \"time_minutes\": 30,\n                    \"estimated_cost\": 15.00,\n                    \"ingredients\": [\"item 1\", \"item 2\"],\n                    \"instructions\": [\"step 1\", \"step 2\"]\n                \x7d\n            ],\n            \"shopping_list\": \x7b\n                \"Produce\": [\"item\", \"item\"],\n                \"Pantry\": [\"item\"],\n                \"Protein\": [\"item\"]\n            \x7d\n        \x7d\n        ")))))))))))))))))) := by
  unfold buildPrompt
  rw [show txt "\n        - Budget Target: Keep total ingredients under $" =
      txt "\n        - Budget Target: Keep total ingredients under " ++ txt "$" from by decide]
  simp only [List.append_assoc]

/-- **C4.** The Prompt Builder is deterministic (it is a function of the
preferences record alone), and for every preferences record — in
particular every valid one — its output contains each enumerated
constraint field as a substring: the meal count, servings, complexity,
the comma-joined cookware list, the ingredient limit, the diet, the
comma-joined avoid list, the cuisine, and the budget target rendered as
currency (`$` directly followed by the number); for
`budget_target = 50` the prompt contains the substring `"$50"`. -/
theorem c4_prompt_fields :
    (∀ p q : MealPreferences, p = q → buildPrompt p = buildPrompt q) ∧
    (∀ p : MealPreferences,
      containsText (buildPrompt p) (natText p.total_meals) ∧
      containsText (buildPrompt p) (natText p.servings) ∧
      containsText (buildPrompt p) p.complexity ∧
      containsText (buildPrompt p) (joinComma p.cook_ware) ∧
      containsText (buildPrompt p) p.max_ingredients ∧
      containsText (buildPrompt p) p.diet_type ∧
      containsText (buildPrompt p) (joinComma p.avoid_list) ∧
      containsText (buildPrompt p) p.cuisine ∧
      containsText (buildPrompt p) (txt "$" ++ intText p.budget_target)) ∧
    (∀ p : MealPreferences, p.budget_target = 50 →
      containsText (buildPrompt p) (txt "$50")) := by
  have key : ∀ p : MealPreferences,
      containsText (buildPrompt p) (txt "$" ++ intText p.budget_target) := by
    intro p
    rw [buildPrompt_decomposition]
    iterate 17 apply containsText_right
    exact containsText_pair _ _ _
  refine ⟨fun p q h => by rw [h], ?_, ?_⟩
  · intro p
    refine ⟨?_, ?_, ?_, ?_, ?_, ?_, ?_, ?_, key p⟩
    · rw [buildPrompt_decomposition]
      iterate 1 apply containsText_right
      exact containsText_head _ _
    · rw [buildPrompt_decomposition]
      iterate 3 apply containsText_right
      exact containsText_head _ _
    · rw [buildPrompt_decomposition]
      iterate 5 apply containsText_right
      exact containsText_head _ _
    · rw [buildPrompt_decomposition]
      iterate 7 apply containsText_right
      exact containsText_head _ _
    · rw [buildPrompt_decomposition]
      iterate 9 apply containsText_right
      exact containsText_head _ _
    · rw [buildPrompt_decomposition]
      iterate 11 apply containsText_right
      exact containsText_head _ _
    · rw [buildPrompt_decomposition]
      iterate 13 apply containsText_right
      exact containsText_head _ _
    · rw [buildPrompt_decomposition]
      iterate 15 apply containsText_right
      exact containsText_head _ _
  · intro p h50
    have base := key p
    rw [h50] at base
    rwa [show txt "$" ++ intText 50 = txt "$50" from by decide] at base

/-- Witness for C4 at a concrete preferences record with
`budget_target = 50`. -/
theorem c4_prompt_fields_witness :
    containsText
      (buildPrompt ⟨3, 2, txt "Easy", [txt "Stove Top", txt "Oven"], txt "Unlimited",
        txt "Balanced", [txt "Nuts"], txt "No Preference", 50⟩)
      (txt "$50") :=
  c4_prompt_fields.2.2
    ⟨3, 2, txt "Easy", [txt "Stove Top", txt "Oven"], txt "Unlimited",
      txt "Balanced", [txt "Nuts"], txt "No Preference", 50⟩ rfl

/-- **C8.** Prompt construction never fails: `buildPrompt` is a total
function and always yields a non-empty text, for every well-formed
preferences record including ones with empty cookware and avoid sets;
an empty set renders as an empty list description (the labelled line
with nothing after the label). -/
theorem c8_prompt_never_fails :
    (∀ p : MealPreferences, buildPrompt p ≠ []) ∧
    (∀ p : MealPreferences, p.cook_ware = [] →
      containsText (buildPrompt p) (txt "- Cookware allowed: \n")) ∧
    (∀ p : MealPreferences, p.avoid_list = [] →
      containsText (buildPrompt p) (txt "- Avoid: \n")) := by
  refine ⟨?_, ?_, ?_⟩
  · intro p h
    unfold buildPrompt at h
    rw [List.append_eq_nil] at h
    exact absurd h.2 (by decide)
  · intro p hc
    rw [buildPrompt_decomposition, hc]
    rw [show joinComma [] = ([] : Text) from rfl]
    rw [show txt "\n        - Cookware allowed: " =
        txt "\n        " ++ txt "- Cookware allowed: " from by decide]
    rw [show txt "\n        - Max Ingredients: " =
        txt "\n" ++ txt "        - Max Ingredients: " from by decide]
    simp only [List.append_assoc, List.nil_append]
    iterate 7 apply containsText_right
    rw [show txt "- Cookware allowed: \n" =
        txt "- Cookware allowed: " ++ txt "\n" from by decide]
    exact containsText_pair _ _ _
  · intro p ha
    rw [buildPrompt_decomposition, ha]
    rw [show joinComma [] = ([] : Text) from rfl]
    rw [show txt "\n        - Avoid: " = txt "\n        " ++ txt "- Avoid: " from by decide]
    rw [show txt "\n        - Cuisine: " = txt "\n" ++ txt "        - Cuisine: " from by decide]
    simp only [List.append_assoc, List.nil_append]
    iterate 13 apply containsText_right
    rw [show txt "- Avoid: \n" = txt "- Avoid: " ++ txt "\n" from by decide]
    exact containsText_pair _ _ _

/-- Witness for C8 at a concrete record with empty cookware and avoid
sets. -/
theorem c8_prompt_never_fails_witness :
    buildPrompt ⟨1, 1, txt "Easy", [], txt "Unlimited", txt "Vegan", [],
      txt "Italian", 20⟩ ≠ [] ∧
    containsText
      (buildPrompt ⟨1, 1, txt "Easy", [], txt "Unlimited", txt "Vegan", [],
        txt "Italian", 20⟩)
      (txt "- Cookware allowed: \n") ∧
    containsText
      (buildPrompt ⟨1, 1, txt "Easy", [], txt "Unlimited", txt "Vegan", [],
        txt "Italian", 20⟩)
      (txt "- Avoid: \n") :=
  ⟨c8_prompt_never_fails.1 _,
   c8_prompt_never_fails.2.1 _ rfl,
   c8_prompt_never_fails.2.2 _ rfl⟩

/-- **C1** (counterexample).  The claim fails as stated: for a parsed
response whose single meal has every field except `estimated_cost`, the
interpreter does not degrade the cost to zero and render the plan — the
rendering loop (line 103) subscripts `meal['estimated_cost']` directly,
so the whole plan aborts with a `KeyError` caught by the catch-all
handler; and the failure is not limited to the two sequence fields. -/
theorem c1_counterexample :
    interpretResponse 50
      (txt "\x7b\"meals\": [\x7b\"title\": \"A\", \"time_minutes\": 5, \"ingredients\": [], \"instructions\": []\x7d], \"shopping_list\": \x7b\x7d\x7d") =
      .pyError (.keyError (txt "estimated_cost")) ∧
    handlerFor (interpretResponse 50
      (txt "\x7b\"meals\": [\x7b\"title\": \"A\", \"time_minutes\": 5, \"ingredients\": [], \"instructions\": []\x7d], \"shopping_list\": \x7b\x7d\x7d")) =
      .genericHandler := ⟨rfl, rfl⟩

/-- **C1** (amended).  The aggregate of line 94 does default a missing
`estimated_cost` to zero (first clause), but the per-meal rendering of
line 103 subscripts the field directly: a meal entry carrying `title`
and `time_minutes` but no `estimated_cost` makes the whole display
block fail with `KeyError('estimated_cost')`, caught by the generic
`except Exception` handler — the plan is aborted, not degraded, and the
failure is not confined to absent `ingredients`/`instructions`
sequences. -/
theorem c1_cost_default_vs_render :
    (∀ kvs : List (Text × Json), dictGet? kvs (txt "estimated_cost") = none →
      totalEstCost (.arr [.obj kvs]) = .ok 0) ∧
    (∀ (budget : Int) (kvs mkvs : List (Text × Json)) (tv tmv : Json),
      dictGet? kvs (txt "meals") = some (.arr [.obj mkvs]) →
      dictGet? mkvs (txt "title") = some tv →
      dictGet? mkvs (txt "time_minutes") = some tmv →
      dictGet? mkvs (txt "estimated_cost") = none →
      processData budget (.obj kvs) = .error (.keyError (txt "estimated_cost"))) := by
  constructor
  · intro kvs h
    simp [totalEstCost, pyIter, sumCosts, pyGetMethod, pyAddInt, h]
  · intro budget kvs mkvs tv tmv hm ht htm hest
    simp [processData, subscriptStr, hm, ht, htm, hest, totalEstCost, pyIter, sumCosts,
      pyGetMethod, pyAddInt, renderMeals, renderMeal]

/-- Witness for the amended C1 at concrete records. -/
theorem c1_cost_default_vs_render_witness :
    totalEstCost (.arr [.obj [(txt "title", .str (txt "A"))]]) = .ok 0 ∧
    processData 50 (.obj [(txt "meals",
        .arr [.obj [(txt "title", .str (txt "A")), (txt "time_minutes", .num 5)]]),
      (txt "shopping_list", .obj [])]) =
      .error (.keyError (txt "estimated_cost")) :=
  ⟨c1_cost_default_vs_render.1 [(txt "title", .str (txt "A"))] rfl,
   c1_cost_default_vs_render.2 50
     [(txt "meals", .arr [.obj [(txt "title", .str (txt "A")), (txt "time_minutes", .num 5)]]),
      (txt "shopping_list", .obj [])]
     [(txt "title", .str (txt "A")), (txt "time_minutes", .num 5)]
     (.str (txt "A")) (.num 5) rfl rfl rfl rfl⟩

/-- **C2** (counterexample).  The claim fails as stated: the valid JSON
reply `{"shopping_list": {}}`, which lacks the `meals` key, does fail —
but through the catch-all `except Exception` handler of line 124 (the
generic, unclassified path shared with every non-JSON-decode
exception), displayed as `An error occurred: 'meals'`; the code has no
distinct `SchemaMismatch` classification. -/
theorem c2_counterexample :
    interpretResponse 50 (txt "\x7b\"shopping_list\": \x7b\x7d\x7d") =
      .pyError (.keyError (txt "meals")) ∧
    handlerFor (interpretResponse 50 (txt "\x7b\"shopping_list\": \x7b\x7d\x7d")) =
      .genericHandler ∧
    displayedError (interpretResponse 50 (txt "\x7b\"shopping_list\": \x7b\x7d\x7d")) =
      some (txt "An error occurred: \x27meals\x27") := ⟨rfl, rfl, rfl⟩

/-- **C2** (amended).  A reply that parses to a JSON object without a
`meals` key fails with `KeyError('meals')` at line 94, and one whose
meals render completely but which lacks `shopping_list` fails with
`KeyError('shopping_list')` at line 117; both failures are caught by
the generic `except Exception` handler (line 124) — a path distinct
from `MalformedResponse` (line 122) but shared with all other
exceptions, not a dedicated `SchemaMismatch` classification. -/
theorem c2_missing_keys :
    (∀ (budget : Int) (t : Text) (kvs : List (Text × Json)),
      jsonParse (cleanText t) = some (.obj kvs) →
      dictGet? kvs (txt "meals") = none →
      interpretResponse budget t = .pyError (.keyError (txt "meals")) ∧
      handlerFor (interpretResponse budget t) = .genericHandler) ∧
    (∀ (budget : Int) (t : Text) (kvs : List (Text × Json)) (mv : Json) (total : Int)
        (ms : List Json) (rms : List RenderedMeal),
      jsonParse (cleanText t) = some (.obj kvs) →
      dictGet? kvs (txt "meals") = some mv →
      totalEstCost mv = .ok total →
      pyIter mv = .ok ms →
      renderMeals ms = .ok rms →
      dictGet? kvs (txt "shopping_list") = none →
      interpretResponse budget t = .pyError (.keyError (txt "shopping_list")) ∧
      handlerFor (interpretResponse budget t) = .genericHandler) := by
  constructor
  · intro budget t kvs hparse hmeals
    have hout : interpretResponse budget t = .pyError (.keyError (txt "meals")) := by
      unfold interpretResponse
      rw [hparse]
      simp [processData, subscriptStr, hmeals]
    exact ⟨hout, by rw [hout]; rfl⟩
  · intro budget t kvs mv total ms rms hparse hmeals htotal hiter hrender hsl
    have hout : interpretResponse budget t = .pyError (.keyError (txt "shopping_list")) := by
      unfold interpretResponse
      rw [hparse]
      simp [processData, subscriptStr, hmeals, htotal, hiter, hrender, hsl]
    exact ⟨hout, by rw [hout]; rfl⟩

/-- Witness for the amended C2 at two concrete reply texts. -/
theorem c2_missing_keys_witness :
    interpretResponse 50 (txt "\x7b\"shopping_list\": \x7b\x7d\x7d") =
      .pyError (.keyError (txt "meals")) ∧
    interpretResponse 50 (txt "\x7b\"meals\": []\x7d") =
      .pyError (.keyError (txt "shopping_list")) :=
  ⟨(c2_missing_keys.1 50 (txt "\x7b\"shopping_list\": \x7b\x7d\x7d")
      [(txt "shopping_list", .obj [])] rfl rfl).1,
   (c2_missing_keys.2 50 (txt "\x7b\"meals\": []\x7d")
      [(txt "meals", .arr [])] (.arr []) 0 [] [] rfl rfl rfl rfl rfl rfl).1⟩
